import Mathlib

/-!
Verification of the process/stoichiometry core of QSDsan (`qsdsan/_process.py`)
against its natural-language specification.

The Python source is shallowly embedded: sympy expressions become an inductive
`Expr` with a rational-valued evaluator, Python `dict` attribute stores become
association lists that preserve insertion order, numpy arrays of coefficients
become `List ℚ`, and raised Python exceptions become `Except ExcKind` results
(or a `(state, Option ExcKind)` pair when the mutated state on failure
matters).
-/

set_option autoImplicit false

namespace QSDsan

/-- Kind of a raised Python exception, as distinguished by its class. -/
inductive ExcKind where
  | typeError
  | valueError
  | attributeError
  | runtimeError
  | keyError
  | readOnlyError
  deriving DecidableEq, Repr

/-- Shallow embedding of a sympy expression: rational constants, symbols,
and the arithmetic operations the embedded code builds. -/
inductive Expr where
  | const (q : ℚ)
  | sym (name : String)
  | add (a b : Expr)
  | mul (a b : Expr)
  | neg (a : Expr)
  deriving DecidableEq, Repr

/-- Value of a sympy expression under a valuation of its symbols. -/
def Expr.eval (σ : String → ℚ) : Expr → ℚ
  | .const q => q
  | .sym n => σ n
  | .add a b => Expr.eval σ a + Expr.eval σ b
  | .mul a b => Expr.eval σ a * Expr.eval σ b
  | .neg a => - Expr.eval σ a

/-- Free symbols of a sympy expression. -/
def Expr.freeVars : Expr → List String
  | .const _ => []
  | .sym n => [n]
  | .add a b => Expr.freeVars a ++ Expr.freeVars b
  | .mul a b => Expr.freeVars a ++ Expr.freeVars b
  | .neg a => Expr.freeVars a

instance exceptDecEq {ε α : Type} [DecidableEq ε] [DecidableEq α] :
    DecidableEq (Except ε α) := fun a b =>
  match a, b with
  | .error e, .error f =>
      if h : e = f then .isTrue (by rw [h])
      else .isFalse (by intro hc; injection hc; exact h (by assumption))
  | .error _, .ok _ => .isFalse (by intro hc; cases hc)
  | .ok _, .error _ => .isFalse (by intro hc; cases hc)
  | .ok x, .ok y =>
      if h : x = y then .isTrue (by rw [h])
      else .isFalse (by intro hc; injection hc; exact h (by assumption))

/-- First-match lookup in an association list (a Python `dict` whose keys are
unique, insertion order preserved). -/
def assocLookup {α : Type} (d : List (String × α)) (k : String) : Option α :=
  match d with
  | [] => none
  | (k', v) :: rest => if k' = k then some v else assocLookup rest k

/-! ### CompiledProcesses.__new__ and its class-level cache (C1)

`CompiledProcesses.__new__` keys the class-level `_cache` dict by
`tuple(processes)`.  Process objects use identity hashing/equality, so a
`Process` is modelled by an opaque identity (`Nat`); a tuple of processes is a
`List Nat`.  A freshly built compiled object is a new allocation, modelled by
drawing its object identity from a counter. -/

/-- The class-level state of `CompiledProcesses`: the `_cache` dict (keyed by
the process tuple, value = object identity of the cached compiled instance)
plus an allocation counter supplying fresh object identities. -/
structure CacheState where
  cache : List (List Nat × Nat)
  next : Nat
  deriving DecidableEq, Repr

/-- The module-load state: `_cache = {}` (source line 402). -/
def CacheState.initial : CacheState := ⟨[], 0⟩

/-- `processes in cache` / `cache[processes]`: lookup keyed by tuple equality
(element-wise object identity of the member processes). -/
def cacheFind (key : List Nat) : List (List Nat × Nat) → Option Nat
  | [] => none
  | (k, v) :: rest => if k = key then some v else cacheFind key rest

/-- `CompiledProcesses.__new__` (source lines 404-428): if the process tuple is
a cache key, return the cached instance and leave the state alone; otherwise
allocate a fresh instance, compile it, and cache it under that tuple. -/
def CompiledProcesses.new (s : CacheState) (processes : List Nat) : Nat × CacheState :=
  match cacheFind processes s.cache with
  | some i => (i, s)
  | none => (s.next, ⟨(processes, s.next) :: s.cache, s.next + 1⟩)

/-! ### CompiledProcesses._compile (C2)

`_compile` (source lines 437-467) merges the member processes' component sets
into one compiled universe, expands each process's non-zero stoichiometry view
into a dense row, stacks the rows into `_stoichiometry`, collects the rate
equations, and sets `_production_rates = Matrix(M_stch).T * Matrix(rate_eqs)`.
Coefficients and rates are modelled uniformly as `Expr` (a numeric entry is an
`Expr.const`; sympy's `Matrix` accepts both). -/

/-- A `Process` as `_compile` consumes it: its ID, the IDs of its own component
universe (`_components`, in order), its non-zero stoichiometry view
(`Process.stoichiometry`, source lines 172-176), its rate equation and its
parameter names. -/
structure ProcessC where
  ID : String
  components : List String
  stoichiometry : List (String × Expr)
  rate_equation : Expr
  parameters : List String
  deriving DecidableEq, Repr

/-- Insert-if-absent union preserving first-occurrence order: the semantics of
filling a Python `dict` keyed by ID (`Components.__new__` over the
concatenation of all member component lists, and `params.update`). -/
def mergeIDs : List String → List String → List String
  | acc, [] => acc
  | acc, c :: rest => if acc.contains c then mergeIDs acc rest else mergeIDs (acc ++ [c]) rest

/-- `cmps._index[c]`: position of a component ID in the compiled universe. -/
def compIndex (cmps : List String) (c : String) : Option Nat :=
  match cmps with
  | [] => none
  | x :: rest =>
      if x = c then some 0
      else (compIndex rest c).map (· + 1)

/-- `stch = [0]*cmps.size` followed by `stch[cmps._index[cmp]] = coeff` for
each non-zero entry: writes each sparse coefficient into a dense row; a sparse
key outside the compiled universe is a `KeyError`. -/
def fillRow (cmps : List String) : List Expr → List (String × Expr) → Except ExcKind (List Expr)
  | row, [] => .ok row
  | row, (c, v) :: rest =>
      match compIndex cmps c with
      | some j => fillRow cmps (row.set j v) rest
      | none => .error .keyError

/-- The dense stoichiometry rows `M_stch`, one per process in order. -/
def buildRows (cmps : List String) : List ProcessC → Except ExcKind (List (List Expr))
  | [] => .ok []
  | p :: rest =>
      match fillRow cmps (List.replicate cmps.length (Expr.const 0)) p.stoichiometry with
      | .error e => .error e
      | .ok row =>
          match buildRows cmps rest with
          | .error e => .error e
          | .ok rows => .ok (row :: rows)

/-- Sum of a list of sympy expressions (how a matrix-product entry is formed). -/
def sumE : List Expr → Expr
  | [] => Expr.const 0
  | e :: rest => Expr.add e (sumE rest)

/-- Column `c` of the stoichiometry matrix, i.e. row `c` of its transpose. -/
def columnE (M : List (List Expr)) (c : Nat) : List Expr :=
  M.map (fun row => row.getD c (Expr.const 0))

/-- `Matrix(M_stch).T * Matrix(rate_eqs)` (source line 467): entry `c` of the
product of the transposed stoichiometry matrix with the rate column vector. -/
def matTvec (M : List (List Expr)) (r : List Expr) (ncols : Nat) : List Expr :=
  (List.range ncols).map (fun c => sumE (List.zipWith Expr.mul (columnE M c) r))

/-- The fields `_compile` stores on a compiled collection. -/
structure Compiled where
  IDs : List String
  components : List String
  M : List (List Expr)
  rate_eqs : List Expr
  production : List Expr
  parameters : List String
  deriving DecidableEq, Repr

instance : Inhabited Compiled := ⟨⟨[], [], [], [], [], []⟩⟩

/-- `CompiledProcesses._compile` (source lines 437-467). -/
def CompiledProcesses.compileOf (procs : List ProcessC) : Except ExcKind Compiled :=
  let IDs := procs.map (·.ID)
  let cmps := mergeIDs [] (procs.flatMap (·.components))
  let rate_eqs := procs.map (·.rate_equation)
  match buildRows cmps procs with
  | .error e => .error e
  | .ok M =>
      .ok { IDs := IDs
            components := cmps
            M := M
            rate_eqs := rate_eqs
            production := matTvec M rate_eqs cmps.length
            parameters := mergeIDs [] (procs.flatMap (·.parameters)) }

/-! ### Process construction and reference-component normalization (C3, C4, C8, C10)

A `Process` whose stoichiometry has been materialized as a numeric numpy array
(the fully numeric case) is modelled by `ProcessNum`; coefficients are `ℚ`. -/

/-- A `Process` with numeric stoichiometry: the attributes `__init__` assigns
(source lines 71-79). -/
structure ProcessNum where
  ID : String
  components : List String
  stoichiometry : List ℚ
  ref_component : String
  conserved_for : List String
  parameters : List String
  rate_equation : Expr
  deriving DecidableEq, Repr

/-- `Process._normalize_stoichiometry` (source lines 190-196): divide every
coefficient by the absolute value of the coefficient of `new_ref`.  An ID
absent from `_components._index` is a `KeyError`.  (The claims exercise only
non-zero factors; numpy's non-finite results of dividing by `0.0` are outside
this ℚ model.) -/
def Process.normalize_stoichiometry (p : ProcessNum) (new_ref : String) :
    Except ExcKind ProcessNum :=
  match compIndex p.components new_ref with
  | none => .error .keyError
  | some j =>
      let factor := |p.stoichiometry.getD j 0|
      .ok { p with stoichiometry := p.stoichiometry.map (· / factor) }

/-- `Process._normalize_rate_eq` (source lines 198-200): multiply the rate
equation by the coefficient of `new_ref` as the stoichiometry stands when this
runs. -/
def Process.normalize_rate_eq (p : ProcessNum) (new_ref : String) :
    Except ExcKind ProcessNum :=
  match compIndex p.components new_ref with
  | none => .error .keyError
  | some j =>
      .ok { p with rate_equation :=
              Expr.mul p.rate_equation (Expr.const (p.stoichiometry.getD j 0)) }

/-- The `Process.ref_component` setter (source lines 140-145): for a truthy new
value, store it, normalize the stoichiometry, and only then normalize the rate
equation (which therefore reads the already-divided coefficient). -/
def Process.ref_component_set (p : ProcessNum) (ref_cmp : String) :
    Except ExcKind ProcessNum :=
  if ref_cmp = "" then .ok p
  else
    match Process.normalize_stoichiometry { p with ref_component := ref_cmp } ref_cmp with
    | .error e => .error e
    | .ok p1 => Process.normalize_rate_eq p1 ref_cmp

/-- The text of a rate equation after tokenizing: names and arithmetic. -/
inductive RawExpr where
  | num (q : ℚ)
  | name (s : String)
  | add (a b : RawExpr)
  | mul (a b : RawExpr)
  | neg (a : RawExpr)
  deriving DecidableEq, Repr

/-- The names a rate-equation text mentions. -/
def RawExpr.names : RawExpr → List String
  | .num _ => []
  | .name s => [s]
  | .add a b => RawExpr.names a ++ RawExpr.names b
  | .mul a b => RawExpr.names a ++ RawExpr.names b
  | .neg a => RawExpr.names a

/-- sympy's `parse_expr(eq, local_dict)` with the standard transformations: a
name bound in `local_dict` resolves to its symbol `symbols(name)`, and an
unbound name is auto-converted to `Symbol(name)` (the `auto_symbol`
transformation) — either way the result is the symbol of that name, and no
name is ever rejected. -/
def parse_expr (locals : List String) : RawExpr → Expr
  | .num q => .const q
  | .name s => if locals.contains s then .sym s else .sym s
  | .add a b => .add (parse_expr locals a) (parse_expr locals b)
  | .mul a b => .mul (parse_expr locals a) (parse_expr locals b)
  | .neg a => .neg (parse_expr locals a)

/-- `Process._parse_rate_eq` (source lines 186-188): parse against the
component-concentration symbols merged with the declared parameter symbols. -/
def Process.parse_rate_eq (componentIDs : List String) (params : List String)
    (eq : RawExpr) : Expr :=
  parse_expr (componentIDs ++ params) eq

/-- Modelled from the spec: `get_stoichiometric_coeff` lives in
`qsdsan/_parse.py`, which is not under `src/`.  Per §4.1, in explicit-mapping
form every component absent from the mapping gets coefficient 0 and the result
is aligned to the component universe's order; a mapping key outside the
universe fails. -/
def get_stoichiometric_coeff (reaction : List (String × ℚ)) (cmps : List String) :
    Except ExcKind (List ℚ) :=
  if reaction.all (fun kv => cmps.contains kv.1) then
    .ok (cmps.map (fun c => (assocLookup reaction c).getD 0))
  else .error .valueError

/-- `Process.__init__` (source lines 71-79), in source order: store the simple
attributes, build `_parameters = {p: symbols(p) for p in parameters}` — a dict
comprehension that raises `TypeError` when `parameters` is `None` (not
iterable) — then resolve the stoichiometry, then parse the rate equation. -/
def Process.init (ID : String) (reaction : List (String × ℚ)) (ref_component : String)
    (rate_equation : RawExpr) (componentIDs : List String)
    (conserved_for : List String) (parameters : Option (List String)) :
    Except ExcKind ProcessNum :=
  match parameters with
  | none => .error .typeError
  | some ps =>
      match get_stoichiometric_coeff reaction componentIDs with
      | .error e => .error e
      | .ok sto =>
          .ok { ID := ID
                components := componentIDs
                stoichiometry := sto
                ref_component := ref_component
                conserved_for := conserved_for
                parameters := ps
                rate_equation := Process.parse_rate_eq componentIDs ps rate_equation }

/-! ### Conservation checking (C5)

`get_conversion_factors` (source lines 81-93) begins by reading
`self._conservation_for` — but `__init__` (line 75) stores the conserved-
quantity tuple under the attribute name `_conserved_for`, and nothing in the
class ever assigns `_conservation_for`.  The attribute access is modelled
explicitly so that the resulting `AttributeError` falls out of the lookup. -/

/-- The compiled component universe as `get_conversion_factors` reads it:
component IDs plus, for each material name `m`, the numeric array
`i_<m>` holding one conversion factor per component. -/
structure ComponentSet where
  IDs : List String
  iAttr : String → List ℚ

/-- A `Process` as `check_conservation` sees it: the stoichiometry is either a
materialized numeric array or a still-symbolic list. -/
inductive Stoich where
  | numeric (v : List ℚ)
  | symbolic (v : List Expr)
  deriving DecidableEq, Repr

/-- A `Process` with the attributes relevant to the conservation check. -/
structure ProcessCons where
  ID : String
  components : ComponentSet
  stoichiometry : Stoich
  conserved_for : List String
  ref_component : String

/-- `getattr(self, name)` for a conserved-quantity tuple on a `Process`:
`__init__` assigns the tuple under `_conserved_for` only, so that is the one
name whose lookup succeeds; any other name raises `AttributeError`. -/
def ProcessCons.getattrMaterials (p : ProcessCons) (name : String) :
    Except ExcKind (List String) :=
  if name = "_conserved_for" then .ok p.conserved_for else .error .attributeError

/-- `Process.get_conversion_factors` (source lines 81-93): reads
`self._conservation_for` (a name that is never assigned — the attribute is
`_conserved_for`), then, were that to succeed, would vstack the `i_` rows of
the named materials, or return `None` for an empty tuple. -/
def Process.get_conversion_factors (p : ProcessCons) :
    Except ExcKind (Option (List (List ℚ))) :=
  match p.getattrMaterials "_conservation_for" with
  | .error e => .error e
  | .ok materials =>
      if materials.isEmpty then .ok none
      else .ok (some (materials.map p.components.iAttr))

/-- Dot product of a conversion-factor row with the stoichiometry vector. -/
def dotQ (xs ys : List ℚ) : ℚ := (List.zipWith (· * ·) xs ys).sum

/-- `Process.check_conservation` (source lines 95-113): for a numeric
stoichiometry, compute `ic @ v` and raise `RuntimeError` listing the materials
whose residual is not within `atol=tol` of zero (`np.isclose`); for a
symbolic stoichiometry, raise `RuntimeError` ("Can only check conservations
with numerical stoichiometric coefficients").  `ic = None` would make `ic @ v`
a `TypeError`. -/
def Process.check_conservation (p : ProcessCons) (tol : ℚ) :
    Except ExcKind (List (String × ℚ)) :=
  match p.stoichiometry with
  | .numeric v =>
      match Process.get_conversion_factors p with
      | .error e => .error e
      | .ok none => .error .typeError
      | .ok (some ic) =>
          let residuals := ic.map (fun row => dotQ row v)
          let unconserved :=
            (p.conserved_for.zip residuals).filter (fun mv => ¬ |mv.2| ≤ tol)
          if unconserved.isEmpty then .ok unconserved else .error .runtimeError
  | .symbolic _ => .error .runtimeError

/-! ### The mutable Processes registry (C6, C9)

A `Processes` object stores its members directly in `self.__dict__`, a Python
dict keyed by process ID — modelled as an insertion-ordered association list
with unique keys.  Distinct `Process` objects that happen to share an ID are
told apart by an opaque identity. -/

/-- A `Process` object held in a registry: its ID and its object identity. -/
structure ProcObj where
  ID : String
  oid : Nat
  deriving DecidableEq, Repr

/-- An argument passed to `append`/`extend`: a `Process` object or any other
Python object (rejected by the `isinstance` check). -/
inductive PyObj where
  | proc (p : ProcObj)
  | nonProc (tag : Nat)
  deriving DecidableEq, Repr

/-- `self.__dict__` of a `Processes` object. -/
abbrev ProcDict := List (String × ProcObj)

/-- `Processes.append` (source lines 261-269): reject a non-`Process` argument
with `TypeError`, reject an already-present ID with `ValueError`, otherwise
insert at the end.  Returns the state after the call together with the raised
exception, if any. -/
def Processes.append (self : ProcDict) (obj : PyObj) : ProcDict × Option ExcKind :=
  match obj with
  | .nonProc _ => (self, some .typeError)
  | .proc p =>
      if (assocLookup self p.ID).isSome then (self, some .valueError)
      else (self ++ [(p.ID, p)], none)

/-- `Processes.extend` over a plain iterable (source line 276):
`for process in processes: self.append(process)` — appends one by one, so a
failure part-way leaves the earlier appends in place. -/
def Processes.extendIter (self : ProcDict) : List PyObj → ProcDict × Option ExcKind
  | [] => (self, none)
  | o :: rest =>
      match Processes.append self o with
      | (s, none) => Processes.extendIter s rest
      | (s, some e) => (s, some e)

/-- One entry of `dict.update`'s result for a key already present: it keeps its
position and takes the other dict's value when the other dict has that key. -/
def updEntry (other : ProcDict) (kv : String × ProcObj) : String × ProcObj :=
  match assocLookup other kv.1 with
  | some v => (kv.1, v)
  | none => kv

/-- Python `dict.update`: keys already present keep their position and take the
other dict's value; new keys are appended in the other dict's order. -/
def dictUpdate (self other : ProcDict) : ProcDict :=
  self.map (updEntry other)
    ++ other.filter (fun kv => (assocLookup self kv.1).isNone)

/-- `Processes.extend` with another `Processes` object (source lines 273-274):
`self.__dict__.update(processes.__dict__)` — no duplicate check, no error. -/
def Processes.extendColl (self other : ProcDict) : ProcDict × Option ExcKind :=
  (dictUpdate self other, none)

/-- `getattr(self, i)` on a `Processes` object: a member by ID, else a plain
`AttributeError` (the class defines no `__getattr__`). -/
def Processes.getattrProc (self : ProcDict) (i : String) : Except ExcKind ProcObj :=
  match assocLookup self i with
  | some p => .ok p
  | none => .error .attributeError

/-- The list comprehension `[getattr(self, i) for i in IDs]`. -/
def Processes.getattrAll (self : ProcDict) : List String → Except ExcKind (List ProcObj)
  | [] => .ok []
  | i :: rest =>
      match Processes.getattrProc self i with
      | .error e => .error e
      | .ok p =>
          match Processes.getattrAll self rest with
          | .error e => .error e
          | .ok ps => .ok (p :: ps)

/-- `Processes.subgroup` (source lines 278-288): gathers the named members and
then evaluates `Process([...])` — the single-reaction class `Process`, not
`Processes` — passing one positional argument where `Process.__init__`
requires `ID`, `reaction` and `ref_component`; that call raises `TypeError`
before any object is created, so no collection is ever returned. -/
def Processes.subgroup (self : ProcDict) (IDs : List String) : Except ExcKind ProcDict :=
  match Processes.getattrAll self IDs with
  | .error e => .error e
  | .ok _ => .error .typeError

/-! ### The read-only compiled collection (C7) -/

/-- A mutation attempt on a compiled collection. -/
inductive MutationOp where
  | append (arg : PyObj)
  | extend (args : List PyObj)
  | setitem (key : String) (v : PyObj)
  | setattrOp (name : String) (v : PyObj)
  deriving DecidableEq, Repr

/-- Modelled from the spec: `CompiledProcesses` is wrapped by thermosteam's
`@read_only(methods=('append', 'extend', '__setitem__'))` decorator (source
lines 399-400), whose implementation is not under `src/`.  Per the spec
(§4.4, §7 `ImmutabilityError`), the decorator replaces each listed method and
attribute assignment with a denier that raises an immutability error and
touches nothing. -/
def CompiledProcesses.mutate (s : Compiled) (op : MutationOp) : Compiled × Option ExcKind :=
  match op with
  | .append _ => (s, some .readOnlyError)
  | .extend _ => (s, some .readOnlyError)
  | .setitem _ _ => (s, some .readOnlyError)
  | .setattrOp _ _ => (s, some .readOnlyError)

/-! ### Concrete objects used by the claim theorems and witnesses -/

/-- The spec's §8 scenario: `growth: A -> 2 B, rate = k*A` and
`decay: B -> A, rate = k2*B` over components `{A, B}`. -/
def demoProcs : List ProcessC :=
  [ { ID := "growth"
      components := ["A", "B"]
      stoichiometry := [("A", Expr.const (-1)), ("B", Expr.const 2)]
      rate_equation := Expr.mul (Expr.sym "k") (Expr.sym "A")
      parameters := ["k"] },
    { ID := "decay"
      components := ["A", "B"]
      stoichiometry := [("B", Expr.const (-1)), ("A", Expr.const 1)]
      rate_equation := Expr.mul (Expr.sym "k2") (Expr.sym "B")
      parameters := ["k2"] } ]

/-- The compiled collection the two demo processes produce. -/
def demoCompiled : Compiled :=
  match CompiledProcesses.compileOf demoProcs with
  | .ok cp => cp
  | .error _ => default

/-- A process `A -> 2 B` with rate symbol `r`, reference component `A`
(coefficient `-1`, magnitude 1). -/
def p3 : ProcessNum :=
  { ID := "r1"
    components := ["A", "B"]
    stoichiometry := [-1, 2]
    ref_component := "A"
    conserved_for := []
    parameters := []
    rate_equation := Expr.sym "r" }

/-- A process whose reference component `A` has coefficient exactly `+1`. -/
def p4w : ProcessNum :=
  { ID := "r2"
    components := ["A", "B"]
    stoichiometry := [1, -2]
    ref_component := "A"
    conserved_for := []
    parameters := []
    rate_equation := Expr.sym "r" }

/-- A two-component universe whose conversion factors are all 1. -/
def cset5 : ComponentSet := { IDs := ["A", "B"], iAttr := fun _ => [1, 1] }

/-- A process with a fully numeric, perfectly conserving stoichiometry. -/
def p5 : ProcessCons :=
  { ID := "conv"
    components := cset5
    stoichiometry := .numeric [-1, 1]
    conserved_for := ["COD"]
    ref_component := "A" }

/-- A registry holding two processes, `a` and `b`. -/
def coll9 : ProcDict := [("a", ⟨"a", 0⟩), ("b", ⟨"b", 1⟩)]

/-! ### Helper lemmas -/

theorem getD_map_of_lt {α β : Type} (f : α → β) (d : α) (d' : β) :
    ∀ (l : List α) (i : Nat), i < l.length → (l.map f).getD i d' = f (l.getD i d) := by
  intro l
  induction l with
  | nil => intro i h; simp at h
  | cons x xs ih =>
      intro i h
      cases i with
      | zero => rfl
      | succ n => exact ih n (by simpa using h)

theorem range_getD (n i : Nat) (h : i < n) : (List.range n).getD i 0 = i := by
  have h' : i < (List.range n).length := by simpa using h
  rw [List.getD_eq_getElem _ _ h']
  simp

theorem assocLookup_cons {α : Type} (x : String × α) (l : List (String × α)) (k : String) :
    assocLookup (x :: l) k = if x.1 = k then some x.2 else assocLookup l k := by
  cases x
  rfl

theorem matTvec_getD (M : List (List Expr)) (r : List Expr) (ncols c : Nat)
    (hc : c < ncols) :
    (matTvec M r ncols).getD c (Expr.const 0)
      = sumE (List.zipWith Expr.mul (columnE M c) r) := by
  unfold matTvec
  rw [getD_map_of_lt _ 0 _ _ c (by simpa using hc), range_getD _ _ hc]

theorem eval_sumE_mul (σ : String → ℚ) :
    ∀ (xs ys : List Expr), xs.length = ys.length →
      Expr.eval σ (sumE (List.zipWith Expr.mul xs ys))
        = ∑ i ∈ Finset.range xs.length,
            Expr.eval σ (xs.getD i (Expr.const 0)) * Expr.eval σ (ys.getD i (Expr.const 0)) := by
  intro xs
  induction xs with
  | nil => intro ys h; simp [sumE, Expr.eval]
  | cons x xs ih =>
      intro ys h
      cases ys with
      | nil => simp at h
      | cons y ys =>
          have hlen : xs.length = ys.length := by simpa using h
          simp only [List.zipWith_cons_cons, sumE, Expr.eval, List.length_cons]
          rw [Finset.sum_range_succ', ih ys hlen]
          simp [add_comm]

theorem buildRows_length (cmps : List String) :
    ∀ (procs : List ProcessC) (M : List (List Expr)),
      buildRows cmps procs = .ok M → M.length = procs.length := by
  intro procs
  induction procs with
  | nil =>
      intro M h
      simp only [buildRows] at h
      cases h
      rfl
  | cons p rest ih =>
      intro M h
      simp only [buildRows] at h
      cases hf : fillRow cmps (List.replicate cmps.length (Expr.const 0)) p.stoichiometry with
      | error e => rw [hf] at h; cases h
      | ok row =>
          rw [hf] at h
          cases hb : buildRows cmps rest with
          | error e => rw [hb] at h; cases h
          | ok rows =>
              rw [hb] at h
              cases h
              simpa using ih rows hb

theorem assocLookup_append_of_isSome {α : Type} (k : String) :
    ∀ (d1 d2 : List (String × α)), (assocLookup d1 k).isSome →
      assocLookup (d1 ++ d2) k = assocLookup d1 k := by
  intro d1
  induction d1 with
  | nil => intro d2 h; simp [assocLookup] at h
  | cons kv rest ih =>
      intro d2 h
      simp only [assocLookup, List.cons_append]
      by_cases hk : kv.1 = k
      · simp [assocLookup, hk]
      · simp only [assocLookup, hk, if_false] at h ⊢
        exact ih d2 h

theorem assocLookup_append_of_none {α : Type} (k : String) :
    ∀ (d1 d2 : List (String × α)), assocLookup d1 k = none →
      assocLookup (d1 ++ d2) k = assocLookup d2 k := by
  intro d1
  induction d1 with
  | nil => intro d2 _; rfl
  | cons kv rest ih =>
      intro d2 h
      simp only [assocLookup, List.cons_append]
      by_cases hk : kv.1 = k
      · simp [assocLookup, hk] at h
      · simp only [assocLookup, hk, if_false] at h ⊢
        exact ih d2 h

theorem assocLookup_map_updEntry (other : ProcDict) (j : String) (w : ProcObj) :
    ∀ (self : ProcDict), (assocLookup self j).isSome → assocLookup other j = some w →
      assocLookup (self.map (updEntry other)) j = some w := by
  intro self
  induction self with
  | nil => intro h _; simp [assocLookup] at h
  | cons kv rest ih =>
      intro h hw
      by_cases hk : kv.1 = j
      · subst hk
        have hkv : updEntry other kv = (kv.1, w) := by
          unfold updEntry
          rw [hw]
        rw [List.map_cons, hkv, assocLookup_cons]
        simp
      · have h' : (assocLookup rest j).isSome := by
          simpa [assocLookup_cons, hk] using h
        have hkey : (updEntry other kv).1 = kv.1 := by
          unfold updEntry
          cases assocLookup other kv.1 <;> rfl
        rw [List.map_cons, assocLookup_cons, hkey, if_neg hk]
        exact ih h' hw

theorem assocLookup_dictUpdate (self other : ProcDict) (j : String) (w : ProcObj)
    (hself : (assocLookup self j).isSome) (hother : assocLookup other j = some w) :
    assocLookup (dictUpdate self other) j = some w := by
  unfold dictUpdate
  have hmap := assocLookup_map_updEntry other j w self hself hother
  rw [assocLookup_append_of_isSome _ _ _ (by rw [hmap]; rfl), hmap]

theorem extendIter_prefix_then_duplicate (p : ProcObj) :
    ∀ (pre : List ProcObj) (self : ProcDict),
      (assocLookup self p.ID).isSome →
      (∀ q ∈ pre, assocLookup self q.ID = none) →
      (pre.map ProcObj.ID).Nodup →
      Processes.extendIter self (pre.map PyObj.proc ++ [PyObj.proc p])
        = (self ++ pre.map (fun q => (q.ID, q)), some ExcKind.valueError) := by
  intro pre
  induction pre with
  | nil =>
      intro self hp _ _
      simp only [List.map_nil, List.nil_append, Processes.extendIter, Processes.append,
        hp, if_pos]
      simp
  | cons q rest ih =>
      intro self hp hfresh hnodup
      have hq : assocLookup self q.ID = none := hfresh q (List.mem_cons_self q rest)
      have happend : Processes.append self (PyObj.proc q) = (self ++ [(q.ID, q)], none) := by
        simp [Processes.append, hq]
      have hstep :
          Processes.extendIter self (PyObj.proc q :: (List.map PyObj.proc rest ++ [PyObj.proc p]))
            = Processes.extendIter (self ++ [(q.ID, q)])
                (List.map PyObj.proc rest ++ [PyObj.proc p]) := by
        simp only [Processes.extendIter, happend]
      have hp' : (assocLookup (self ++ [(q.ID, q)]) p.ID).isSome := by
        rw [assocLookup_append_of_isSome _ _ _ hp]; exact hp
      have hfresh' : ∀ q' ∈ rest, assocLookup (self ++ [(q.ID, q)]) q'.ID = none := by
        intro q' hq'
        have hne : q.ID ≠ q'.ID := by
          have hmem := hnodup
          simp only [List.map_cons, List.nodup_cons] at hmem
          intro hcontra
          exact hmem.1 (hcontra ▸ List.mem_map_of_mem ProcObj.ID hq')
        rw [assocLookup_append_of_none _ _ _ (hfresh q' (List.mem_cons_of_mem q hq'))]
        simp [assocLookup_cons, assocLookup, hne]
      have hnodup' : (rest.map ProcObj.ID).Nodup := by
        simpa using hnodup.of_cons
      rw [List.map_cons, List.cons_append, hstep, ih (self ++ [(q.ID, q)]) hp' hfresh' hnodup']
      rw [List.append_assoc]
      rfl

theorem normalize_stoichiometry_eq (p : ProcessNum) (r : String) (j : Nat)
    (hj : compIndex p.components r = some j) :
    Process.normalize_stoichiometry p r
      = .ok { p with stoichiometry := p.stoichiometry.map (· / |p.stoichiometry.getD j 0|) } := by
  unfold Process.normalize_stoichiometry
  rw [hj]

theorem normalize_rate_eq_eq (p : ProcessNum) (r : String) (j : Nat)
    (hj : compIndex p.components r = some j) :
    Process.normalize_rate_eq p r
      = .ok { p with rate_equation :=
                Expr.mul p.rate_equation (Expr.const (p.stoichiometry.getD j 0)) } := by
  unfold Process.normalize_rate_eq
  rw [hj]

theorem ref_component_set_eq (p : ProcessNum) (r : String) (j : Nat)
    (hr : ¬ r = "") (hj : compIndex p.components r = some j) :
    Process.ref_component_set p r
      = .ok { p with
                ref_component := r
                stoichiometry := p.stoichiometry.map (· / |p.stoichiometry.getD j 0|)
                rate_equation := Expr.mul p.rate_equation
                  (Expr.const ((p.stoichiometry.map
                      (· / |p.stoichiometry.getD j 0|)).getD j 0)) } := by
  unfold Process.ref_component_set
  rw [if_neg hr]
  have hj1 : compIndex ({ p with ref_component := r } : ProcessNum).components r = some j := hj
  rw [normalize_stoichiometry_eq _ r j hj1]
  exact normalize_rate_eq_eq _ r j hj

theorem freeVars_parse_expr (locals : List String) :
    ∀ e : RawExpr, Expr.freeVars (parse_expr locals e) = RawExpr.names e := by
  intro e
  induction e with
  | num q => rfl
  | name s => simp [parse_expr, Expr.freeVars, RawExpr.names]
  | add a b iha ihb => simp [parse_expr, Expr.freeVars, RawExpr.names, iha, ihb]
  | mul a b iha ihb => simp [parse_expr, Expr.freeVars, RawExpr.names, iha, ihb]
  | neg a iha => simp [parse_expr, Expr.freeVars, RawExpr.names, iha]

/-! ### Claim theorems -/

/-- Claim C1: constructing a compiled collection twice from element-wise
identical process tuples returns the identical compiled instance and leaves
the cache state untouched (no recompilation), while constructing from a
reordered tuple of the same processes misses the cache and yields a distinct
instance — the cache key is order-sensitive. -/
theorem compiled_cache_memoization_order_sensitive (ps ps' : List Nat)
    (hperm : List.Perm ps ps') (hne : ps' ≠ ps) :
    (CompiledProcesses.new (CompiledProcesses.new CacheState.initial ps).2 ps).1
      = (CompiledProcesses.new CacheState.initial ps).1
    ∧ (CompiledProcesses.new (CompiledProcesses.new CacheState.initial ps).2 ps).2
      = (CompiledProcesses.new CacheState.initial ps).2
    ∧ (CompiledProcesses.new (CompiledProcesses.new CacheState.initial ps).2 ps').1
      ≠ (CompiledProcesses.new CacheState.initial ps).1 := by
  have h1 : CompiledProcesses.new CacheState.initial ps = (0, ⟨[(ps, 0)], 1⟩) := rfl
  rw [h1]
  refine ⟨?_, ?_, ?_⟩
  · simp [CompiledProcesses.new, cacheFind]
  · simp [CompiledProcesses.new, cacheFind]
  · simp [CompiledProcesses.new, cacheFind, Ne.symm hne]

/-- Witness for C1: the two-process tuple (0, 1) against its reordering. -/
theorem compiled_cache_memoization_order_sensitive_witness :
    List.Perm ([0, 1] : List Nat) [1, 0]
    ∧ ([1, 0] : List Nat) ≠ [0, 1]
    ∧ ((CompiledProcesses.new (CompiledProcesses.new CacheState.initial [0, 1]).2 [0, 1]).1
        = (CompiledProcesses.new CacheState.initial [0, 1]).1
      ∧ (CompiledProcesses.new (CompiledProcesses.new CacheState.initial [0, 1]).2 [0, 1]).2
        = (CompiledProcesses.new CacheState.initial [0, 1]).2
      ∧ (CompiledProcesses.new (CompiledProcesses.new CacheState.initial [0, 1]).2 [1, 0]).1
        ≠ (CompiledProcesses.new CacheState.initial [0, 1]).1) :=
  ⟨by decide, by decide,
    compiled_cache_memoization_order_sensitive [0, 1] [1, 0] (by decide) (by decide)⟩

/-- Claim C3 (code bug): for the process `A -> 2 B` with rate symbol `r`,
assigning `B` (coefficient 2) as the new reference divides every coefficient
by `|2|` as claimed, but multiplies the rate equation by the POST-division
coefficient `1` — the setter normalizes the stoichiometry before
`_normalize_rate_eq` reads the factor — so the rate value stays `r` where the
claim (and the `rate_equation` docstring) require `2*r`. -/
theorem refSet_uses_post_division_coefficient :
    p3.stoichiometry.getD 1 0 = 2
    ∧ Process.ref_component_set p3 "B"
        = .ok { p3 with
                  ref_component := "B"
                  stoichiometry := [-(1 : ℚ)/2, 1]
                  rate_equation := Expr.mul (Expr.sym "r") (Expr.const 1) }
    ∧ Expr.eval (fun _ => 3) (Expr.mul (Expr.sym "r") (Expr.const 1)) = 3
    ∧ Expr.eval (fun _ => 3) (Expr.mul (Expr.sym "r") (Expr.const 2)) = 6
    ∧ ((3 : ℚ) ≠ 6) := by
  have habs2 : |(2 : ℚ)| = 2 := abs_of_pos (by norm_num)
  refine ⟨by norm_num [p3], ?_, by norm_num [Expr.eval], by norm_num [Expr.eval], by norm_num⟩
  rw [ref_component_set_eq p3 "B" 1 (by decide) (by decide)]
  norm_num [p3, habs2]

/-- Claim C4 counterexample: `p3`'s reference component `A` has coefficient
`-1` — magnitude 1, the documented construction invariant — yet re-assigning
`A` as the reference multiplies the rate equation by `-1`, changing its value
from `3` to `-3` under the all-threes valuation. -/
theorem refSet_self_negates_rate :
    compIndex p3.components p3.ref_component = some 0
    ∧ |p3.stoichiometry.getD 0 0| = 1
    ∧ Process.ref_component_set p3 p3.ref_component
        = .ok { p3 with rate_equation := Expr.mul (Expr.sym "r") (Expr.const (-1)) }
    ∧ Expr.eval (fun _ => 3) (Expr.mul (Expr.sym "r") (Expr.const (-1))) = -3
    ∧ Expr.eval (fun _ => 3) p3.rate_equation = 3
    ∧ ((-3 : ℚ) ≠ 3) := by
  have habs1 : |(-1 : ℚ)| = 1 := by rw [abs_neg, abs_one]
  refine ⟨by decide, by norm_num [p3, habs1], ?_, by norm_num [Expr.eval],
    by norm_num [Expr.eval, p3], by norm_num⟩
  rw [ref_component_set_eq p3 p3.ref_component 0 (by decide) (by decide)]
  norm_num [p3, habs1]

/-- Claim C5 (code bug): `check_conservation` on a fully numeric, perfectly
conserving stoichiometry raises `AttributeError` — `get_conversion_factors`
reads `self._conservation_for`, an attribute `__init__` never assigns (it
stores `_conserved_for`) — instead of performing the residual check; and the
symbolic branch raises `RuntimeError`, not a `TypeError`-class error. -/
theorem check_conservation_attribute_typo :
    Process.check_conservation p5 (1 / 100000000) = .error ExcKind.attributeError
    ∧ Process.check_conservation
        { p5 with stoichiometry := .symbolic [Expr.sym "a", Expr.sym "b"] } (1 / 100000000)
        = .error ExcKind.runtimeError
    ∧ ExcKind.attributeError ≠ ExcKind.typeError
    ∧ ExcKind.runtimeError ≠ ExcKind.typeError :=
  ⟨rfl, rfl, by decide, by decide⟩

/-- Claim C7: every mutation attempt on a compiled collection — append, extend,
item assignment or attribute assignment — raises the immutability error and
leaves the compiled state (process IDs, stoichiometry matrix, rate equations,
production rates, parameters) unchanged. -/
theorem compiled_mutation_rejected (s : Compiled) (op : MutationOp) :
    (CompiledProcesses.mutate s op).2 = some ExcKind.readOnlyError
    ∧ (CompiledProcesses.mutate s op).1 = s
    ∧ (CompiledProcesses.mutate s op).1.IDs = s.IDs
    ∧ (CompiledProcesses.mutate s op).1.M = s.M
    ∧ (CompiledProcesses.mutate s op).1.rate_eqs = s.rate_eqs
    ∧ (CompiledProcesses.mutate s op).1.production = s.production
    ∧ (CompiledProcesses.mutate s op).1.parameters = s.parameters := by
  cases op <;> exact ⟨rfl, rfl, rfl, rfl, rfl, rfl, rfl⟩

/-- Claim C9 (code bug): `subgroup` raises `TypeError` even when every
requested ID is present — line 288 calls `Process([...])`, the single-reaction
class, instead of `Processes` — so no collection is ever returned; an unknown
ID raises a plain `AttributeError` from `getattr`. -/
theorem subgroup_always_raises :
    Processes.subgroup coll9 ["a"] = .error ExcKind.typeError
    ∧ Processes.subgroup coll9 ["zzz"] = .error ExcKind.attributeError :=
  ⟨rfl, rfl⟩

/-- Claim C10: constructing a `Process` with `parameters` left at its default
`None` raises `TypeError` from the parameter-mapping dict comprehension for
every reaction and rate argument — hence before any stoichiometry resolution
or rate parsing — while an explicit empty parameter list is accepted. -/
theorem init_requires_explicit_parameters (ID ref_component : String)
    (reaction : List (String × ℚ)) (rate : RawExpr)
    (cmps conserved : List String) :
    Process.init ID reaction ref_component rate cmps conserved none
      = .error ExcKind.typeError
    ∧ ∃ p, Process.init "P1" [("A", (-1 : ℚ))] "A" (RawExpr.num 1) ["A"] conserved (some [])
        = .ok p :=
  ⟨rfl, ⟨_, rfl⟩⟩

/-- Claim C2: for every compiled collection, the production-rate entry of each
component of the compiled universe equals the sum over all processes of the
stoichiometry-matrix entry for that (process, component) pair times the
process's rate expression, under every valuation of the symbols. -/
theorem compiled_production_rate_entry (procs : List ProcessC) (cp : Compiled)
    (hok : CompiledProcesses.compileOf procs = .ok cp)
    (c : Nat) (hc : c < cp.components.length) (σ : String → ℚ) :
    Expr.eval σ (cp.production.getD c (Expr.const 0))
      = ∑ p ∈ Finset.range cp.M.length,
          Expr.eval σ ((cp.M.getD p []).getD c (Expr.const 0))
            * Expr.eval σ (cp.rate_eqs.getD p (Expr.const 0)) := by
  unfold CompiledProcesses.compileOf at hok
  dsimp only at hok
  split at hok
  next e heq => cases hok
  next M heq =>
      injection hok with hok
      subst hok
      dsimp only at hc ⊢
      rw [matTvec_getD M _ _ c hc]
      have hMlen : M.length = procs.length := buildRows_length _ procs M heq
      have hlen : (columnE M c).length = (procs.map (fun p => p.rate_equation)).length := by
        simp [columnE, hMlen]
      rw [eval_sumE_mul σ (columnE M c) (procs.map (fun p => p.rate_equation)) hlen]
      have hclen : (columnE M c).length = M.length := by simp [columnE]
      rw [hclen]
      refine Finset.sum_congr rfl ?_
      intro i hi
      have hi' : i < M.length := Finset.mem_range.mp hi
      have hcol : (columnE M c).getD i (Expr.const 0)
          = (M.getD i []).getD c (Expr.const 0) := by
        unfold columnE
        exact getD_map_of_lt (fun row => row.getD c (Expr.const 0)) [] (Expr.const 0) M i hi'
      rw [hcol]

/-- Witness for C2: the spec's growth/decay scenario, component `A`, with all
symbols valued 1. -/
theorem compiled_production_rate_entry_witness :
    CompiledProcesses.compileOf demoProcs = .ok demoCompiled
    ∧ 0 < demoCompiled.components.length
    ∧ Expr.eval (fun _ => 1) (demoCompiled.production.getD 0 (Expr.const 0))
        = ∑ p ∈ Finset.range demoCompiled.M.length,
            Expr.eval (fun _ => 1) ((demoCompiled.M.getD p []).getD 0 (Expr.const 0))
              * Expr.eval (fun _ => 1) (demoCompiled.rate_eqs.getD p (Expr.const 0)) :=
  ⟨rfl, by decide,
    compiled_production_rate_entry demoProcs demoCompiled rfl 0 (by decide) (fun _ => 1)⟩

/-- Claim C4 (amended): re-setting a process's reference component to its
current reference leaves every stoichiometric coefficient unchanged and the
rate expression semantically unchanged whenever the reference coefficient is
exactly `+1`; with coefficient `-1` (the other magnitude-1 case) the
coefficients are still unchanged but the rate expression is negated. -/
theorem refSet_self_noop_when_coeff_one (p : ProcessNum) (j : Nat)
    (hj : compIndex p.components p.ref_component = some j)
    (h1 : p.stoichiometry.getD j 0 = 1) :
    ∃ p', Process.ref_component_set p p.ref_component = .ok p'
      ∧ p'.stoichiometry = p.stoichiometry
      ∧ ∀ σ, Expr.eval σ p'.rate_equation = Expr.eval σ p.rate_equation := by
  by_cases hemp : p.ref_component = ""
  · refine ⟨p, ?_, rfl, fun σ => rfl⟩
    unfold Process.ref_component_set
    rw [if_pos hemp]
  · rw [ref_component_set_eq p p.ref_component j hemp hj]
    have hjlen : j < p.stoichiometry.length := by
      by_contra hcon
      push_neg at hcon
      rw [List.getD_eq_default _ _ hcon] at h1
      exact absurd h1 (by norm_num)
    have hmapid : p.stoichiometry.map (· / |p.stoichiometry.getD j 0|) = p.stoichiometry := by
      rw [h1]
      simp
    refine ⟨_, rfl, hmapid, ?_⟩
    intro σ
    have hgd : (p.stoichiometry.map (· / |p.stoichiometry.getD j 0|)).getD j 0 = 1 := by
      rw [hmapid, h1]
    rw [show ({ p with
          ref_component := p.ref_component
          stoichiometry := p.stoichiometry.map (· / |p.stoichiometry.getD j 0|)
          rate_equation := Expr.mul p.rate_equation
            (Expr.const ((p.stoichiometry.map
                (· / |p.stoichiometry.getD j 0|)).getD j 0)) } : ProcessNum).rate_equation
        = Expr.mul p.rate_equation
            (Expr.const ((p.stoichiometry.map
                (· / |p.stoichiometry.getD j 0|)).getD j 0)) from rfl]
    rw [hgd]
    show Expr.eval σ p.rate_equation * Expr.eval σ (Expr.const 1) = Expr.eval σ p.rate_equation
    show Expr.eval σ p.rate_equation * (1 : ℚ) = Expr.eval σ p.rate_equation
    rw [mul_one]

/-- Witness for C4 (amended): a process whose reference coefficient is `+1`. -/
theorem refSet_self_noop_when_coeff_one_witness :
    compIndex p4w.components p4w.ref_component = some 0
    ∧ p4w.stoichiometry.getD 0 0 = 1
    ∧ ∃ p', Process.ref_component_set p4w p4w.ref_component = .ok p'
        ∧ p'.stoichiometry = p4w.stoichiometry
        ∧ ∀ σ, Expr.eval σ p'.rate_equation = Expr.eval σ p4w.rate_equation :=
  ⟨by decide, by norm_num [p4w],
    refSet_self_noop_when_coeff_one p4w 0 (by decide) (by norm_num [p4w])⟩

/-- Claim C6 counterexample: extending a collection holding a process with ID
`a` by another `Processes` collection that also holds an `a` raises no error at
all and silently replaces the member — the collection is changed, not left
unchanged, and no duplicate-ID error occurs. -/
theorem extend_with_collection_overwrites :
    Processes.extendColl [("a", ⟨"a", 0⟩)] [("a", ⟨"a", 1⟩)]
      = ([("a", ⟨"a", 1⟩)], none)
    ∧ ([("a", (⟨"a", 1⟩ : ProcObj))] : ProcDict) ≠ [("a", ⟨"a", 0⟩)] := by
  refine ⟨rfl, by decide⟩

/-- Claim C6 (amended): appending a process whose ID is already present raises
`ValueError` and leaves the collection unchanged; extending over a plain
iterable raises `ValueError` upon reaching the colliding element but keeps the
fresh elements appended before it (so the collection is unchanged only when
the collision comes first); extending with another `Processes` object raises
no error and silently overwrites the colliding ID's member in place. -/
theorem append_extend_duplicate_handling (self : ProcDict) (p : ProcObj)
    (hp : (assocLookup self p.ID).isSome)
    (pre : List ProcObj)
    (hfresh : ∀ q ∈ pre, assocLookup self q.ID = none)
    (hnodup : (pre.map ProcObj.ID).Nodup)
    (other : ProcDict) (j : String) (v w : ProcObj)
    (hvj : assocLookup self j = some v) (hwj : assocLookup other j = some w) :
    Processes.append self (PyObj.proc p) = (self, some ExcKind.valueError)
    ∧ Processes.extendIter self (pre.map PyObj.proc ++ [PyObj.proc p])
        = (self ++ pre.map (fun q => (q.ID, q)), some ExcKind.valueError)
    ∧ (Processes.extendColl self other).2 = none
    ∧ assocLookup (Processes.extendColl self other).1 j = some w := by
  refine ⟨?_, extendIter_prefix_then_duplicate p pre self hp hfresh hnodup, rfl, ?_⟩
  · simp [Processes.append, hp]
  · exact assocLookup_dictUpdate self other j w (by rw [hvj]; rfl) hwj

/-- Witness for C6 (amended): a one-member collection, a colliding process, a
fresh element ahead of it, and a colliding second collection. -/
theorem append_extend_duplicate_handling_witness :
    ((assocLookup [("a", (⟨"a", 0⟩ : ProcObj))] (ProcObj.mk "a" 5).ID).isSome = true)
    ∧ (∀ q ∈ [(⟨"b", 7⟩ : ProcObj)],
        assocLookup [("a", (⟨"a", 0⟩ : ProcObj))] q.ID = none)
    ∧ (([(⟨"b", 7⟩ : ProcObj)].map ProcObj.ID).Nodup)
    ∧ (assocLookup [("a", (⟨"a", 0⟩ : ProcObj))] "a" = some ⟨"a", 0⟩)
    ∧ (assocLookup [("a", (⟨"a", 9⟩ : ProcObj))] "a" = some ⟨"a", 9⟩)
    ∧ (Processes.append [("a", ⟨"a", 0⟩)] (PyObj.proc ⟨"a", 5⟩)
          = ([("a", ⟨"a", 0⟩)], some ExcKind.valueError)
      ∧ Processes.extendIter [("a", ⟨"a", 0⟩)]
            ([(⟨"b", 7⟩ : ProcObj)].map PyObj.proc ++ [PyObj.proc ⟨"a", 5⟩])
          = ([("a", ⟨"a", 0⟩)] ++ [(⟨"b", 7⟩ : ProcObj)].map (fun q => (q.ID, q)),
              some ExcKind.valueError)
      ∧ (Processes.extendColl [("a", ⟨"a", 0⟩)] [("a", ⟨"a", 9⟩)]).2 = none
      ∧ assocLookup (Processes.extendColl [("a", ⟨"a", 0⟩)] [("a", ⟨"a", 9⟩)]).1 "a"
          = some ⟨"a", 9⟩) :=
  ⟨by decide, by decide, by decide, by decide, by decide,
    append_extend_duplicate_handling [("a", ⟨"a", 0⟩)] ⟨"a", 5⟩ (by decide)
      [⟨"b", 7⟩] (by decide) (by decide) [("a", ⟨"a", 9⟩)] "a" ⟨"a", 0⟩ ⟨"a", 9⟩
      (by decide) (by decide)⟩

/-- Claim C8 counterexample: constructing a `Process` whose rate text
references `mu` — a name that is neither a component nor a declared
parameter — succeeds and stores `mu*X` as the rate expression, rather than
failing with a `ParameterError`. -/
theorem undeclared_rate_name_accepted :
    Process.init "growth" [("X", (-1 : ℚ))] "X"
        (RawExpr.mul (RawExpr.name "mu") (RawExpr.name "X")) ["X"] ["COD"] (some ["k"])
      = .ok { ID := "growth", components := ["X"], stoichiometry := [-1],
              ref_component := "X", conserved_for := ["COD"], parameters := ["k"],
              rate_equation := Expr.mul (Expr.sym "mu") (Expr.sym "X") }
    ∧ ((["X"] ++ ["k"]).contains "mu") = false := by
  refine ⟨rfl, by decide⟩

/-- Claim C8 (amended): a rate text referencing an undeclared name never makes
construction fail — sympy's parser auto-creates a symbol for the unknown name,
which appears among the free symbols of the stored rate expression. -/
theorem undeclared_rate_names_become_free_symbols (ID rc : String)
    (reaction : List (String × ℚ)) (cmps conserved ps : List String) (eq : RawExpr)
    (n : String) (hn : n ∈ RawExpr.names eq)
    (hre : reaction.all (fun kv => cmps.contains kv.1) = true) :
    ∃ p, Process.init ID reaction rc eq cmps conserved (some ps) = .ok p
      ∧ n ∈ Expr.freeVars p.rate_equation := by
  have hinit : Process.init ID reaction rc eq cmps conserved (some ps)
      = .ok { ID := ID
              components := cmps
              stoichiometry := cmps.map (fun c => (assocLookup reaction c).getD 0)
              ref_component := rc
              conserved_for := conserved
              parameters := ps
              rate_equation := Process.parse_rate_eq cmps ps eq } := by
    unfold Process.init get_stoichiometric_coeff
    rw [if_pos hre]
  refine ⟨_, hinit, ?_⟩
  show n ∈ Expr.freeVars (Process.parse_rate_eq cmps ps eq)
  unfold Process.parse_rate_eq
  rw [freeVars_parse_expr]
  exact hn

/-- Witness for C8 (amended): the `mu*X` rate text over universe `{X}` with
declared parameter `k`. -/
theorem undeclared_rate_names_become_free_symbols_witness :
    "mu" ∈ RawExpr.names (RawExpr.mul (RawExpr.name "mu") (RawExpr.name "X"))
    ∧ ([("X", (-1 : ℚ))].all (fun kv => (["X"] : List String).contains kv.1)) = true
    ∧ ∃ p, Process.init "growth" [("X", (-1 : ℚ))] "X"
          (RawExpr.mul (RawExpr.name "mu") (RawExpr.name "X")) ["X"] ["COD"] (some ["k"])
        = .ok p ∧ "mu" ∈ Expr.freeVars p.rate_equation :=
  ⟨by decide, by decide,
    undeclared_rate_names_become_free_symbols "growth" "X" [("X", (-1 : ℚ))]
      ["X"] ["COD"] ["k"] (RawExpr.mul (RawExpr.name "mu") (RawExpr.name "X"))
      "mu" (by decide) (by decide)⟩

end QSDsan
